import Mathlib

/-!
# Verification of the Autobahn test TCP server

A shallow embedding of `tests/test_tcp_server.py`: a TCP server that reads
length-prefixed binary records, classifies each record by its first payload
byte, and counts records whose payload is at least 9 bytes long.

The embedding models one connection's read loop (`handle_client`) as a pure
function from the sequence of results the successive socket reads return
(each read result is a list of byte values) to the list of emitted log lines
and the final transaction counter.  The server object (`AutobahnTestServer`)
holds the counter `tx_count`, which in the Python source lives on the server
instance — one per port — and is therefore shared by every connection
accepted on that port.
-/

set_option linter.unusedVariables false

/-- A byte is modelled as a `Nat`; well-formed bytes are `< 256`. -/
abbrev Byte := Nat

/-- Big-endian interpretation of a byte list, as in `struct.unpack` with
formats `>I` (4 bytes) and `>Q` (8 bytes). -/
def beBytesToNat (bs : List Byte) : Nat :=
  bs.foldl (fun a b => a * 256 + b) 0

/-- The classification outcome keyed on the `tx_type` byte:
`0 = SAMPLE`, `1 = STANDARD`, anything else `UNKNOWN` (which additionally
records the `tx_type` value, as the Python log line does). -/
inductive TxKind where
  | sample
  | standard
  | unknown (txType : Byte)
deriving DecidableEq, Repr

/-- One structured log line emitted by the handler, mirroring the
`logging` calls of `handle_client`. -/
inductive LogLine where
  /-- Log line "Client connected from ...". -/
  | connected
  /-- Log line "Expecting transaction of {length} bytes". -/
  | expecting (length : Nat)
  /-- Log line "Received SAMPLE/STANDARD/UNKNOWN transaction #{tx_count}: ...". -/
  | classify (kind : TxKind) (count : Nat) (txId : Nat) (size : Nat)
  /-- Log line "Transaction too short: {n} bytes". -/
  | tooShort (size : Nat)
  /-- Log line "Incomplete length prefix from ...". -/
  | incompleteLength
  /-- Log line "Incomplete transaction data: expected {e}, got {a}". -/
  | incompleteData (expected actual : Nat)
  /-- Log line "Client ... disconnected. Total transactions received: {n}". -/
  | disconnect (count : Nat)
deriving DecidableEq, Repr

/-- The classification rule of `handle_client` for the `tx_type` byte:
`if tx_type == 0 … elif tx_type == 1 … else …`. -/
def kindOf (txType : Byte) : TxKind :=
  if txType = 0 then TxKind.sample
  else if txType = 1 then TxKind.standard
  else TxKind.unknown txType

/-- The single classification log line for a fully-read payload `txData`
with `txData.length ≥ 9`, where `c` is the value of `tx_count` after the
increment: `tx_type = tx_data[0]`, `tx_id = struct.unpack('>Q', tx_data[1:9])`. -/
def classLine (c : Nat) (txData : List Byte) : LogLine :=
  LogLine.classify (kindOf txData.headI) c (beBytesToNat ((txData.drop 1).take 8)) txData.length

/-- The `while True` read loop of `handle_client`, as a function of the
current `tx_count` and of the list of results the successive `reader.read`
calls return.  An exhausted list means every further read returns the empty
byte string (closed stream); a `read(0)` (zero declared length) returns the
empty byte string immediately without consuming a read result, matching
`asyncio.StreamReader.read(0)`.  Returns the log lines emitted by the loop
body and the final `tx_count`. -/
def handleLoop : Nat → List (List Byte) → List LogLine × Nat
  | c, [] => ([], c)
  | c, chunk :: rest =>
    if chunk.length = 0 then
      -- `if not length_bytes: break`
      ([], c)
    else if chunk.length < 4 then
      -- `logging.warning("Incomplete length prefix ..."); break`
      ([LogLine.incompleteLength], c)
    else
      -- `length = struct.unpack('>I', length_bytes)[0]`
      let L := beBytesToNat chunk
      if L = 0 then
        -- `reader.read(0)` returns b'' at once: `len(b'') == 0 == length`,
        -- and `0 < 9` hits the "Transaction too short" branch.
        let r := handleLoop c rest
        (LogLine.expecting L :: LogLine.tooShort 0 :: r.1, r.2)
      else
        match rest with
        | [] =>
          -- stream closed: `reader.read(length)` returns b'', `0 != length`
          ([LogLine.expecting L, LogLine.incompleteData L 0], c)
        | txData :: rest2 =>
          if txData.length ≠ L then
            ([LogLine.expecting L, LogLine.incompleteData L txData.length], c)
          else if 9 ≤ txData.length then
            let r := handleLoop (c + 1) rest2
            (LogLine.expecting L :: classLine (c + 1) txData :: r.1, r.2)
          else
            let r := handleLoop c rest2
            (LogLine.expecting L :: LogLine.tooShort txData.length :: r.1, r.2)

/-- The whole of `handle_client` for one connection: the connect log line,
the read loop, and the `finally` block's disconnect line reporting the final
`tx_count`.  `c0` is the value of `self.tx_count` when the connection is
accepted. -/
def handle_client (c0 : Nat) (reads : List (List Byte)) : List LogLine × Nat :=
  let r := handleLoop c0 reads
  (LogLine.connected :: r.1 ++ [LogLine.disconnect r.2], r.2)

/-- The `AutobahnTestServer` object: one per configured port; `tx_count`
is an attribute of this object, so it is shared by every connection this
server accepts. -/
structure Server where
  port : Nat
  tx_count : Nat
deriving DecidableEq, Repr

/-- Constructor `AutobahnTestServer.__init__`: `self.port = port; self.tx_count = 0`. -/
def Server.init (port : Nat) : Server := Server.mk port 0

/-- One connection handled by server `s`: `handle_client` runs with the
server's current `tx_count` and writes the final value back to the server. -/
def Server.handleConn (s : Server) (reads : List (List Byte)) :
    List LogLine × Server :=
  let r := handle_client s.tx_count reads
  (r.1, Server.mk s.port r.2)

/-- The list of fully-read payloads ("records") a connection delivers, as a
function of the read results: the framing of `handle_client` replayed purely
for measurement.  A record is in this list exactly when the handler fully
reads its payload (length prefix complete, payload read returns exactly the
declared number of bytes). -/
def frames : List (List Byte) → List (List Byte)
  | [] => []
  | chunk :: rest =>
    if chunk.length = 0 then []
    else if chunk.length < 4 then []
    else
      let L := beBytesToNat chunk
      if L = 0 then [] :: frames rest
      else
        match rest with
        | [] => []
        | txData :: rest2 =>
          if txData.length ≠ L then []
          else txData :: frames rest2

/-- The records of a connection whose payload is at least 9 bytes: the ones
the classification rule counts. -/
def validRecords (reads : List (List Byte)) : List (List Byte) :=
  (frames reads).filter (fun p => 9 ≤ p.length)

/-- Is this log line a per-record classification line? -/
def isClassLine : LogLine → Bool
  | LogLine.classify _ _ _ _ => true
  | _ => false

/-- Is this log line the final disconnect report? -/
def isDisconnectLine : LogLine → Bool
  | LogLine.disconnect _ => true
  | _ => false

/-- The classification lines the handler should emit for a list of valid
records when `tx_count` stands at `c` before the first of them: one line per
record, with the running counter. -/
def mkLines : Nat → List (List Byte) → List LogLine
  | _, [] => []
  | c, p :: ps => classLine (c + 1) p :: mkLines (c + 1) ps

/-- Encode a natural number `< 2^32` as a 4-byte big-endian prefix, as
`struct.pack('>I', n)` would. -/
def natToBe4 (n : Nat) : List Byte :=
  [n / 2 ^ 24 % 256, n / 2 ^ 16 % 256, n / 2 ^ 8 % 256, n % 256]

/-- The wire image of a list of payloads, each sent as one well-formed frame
(4-byte big-endian length prefix, then the payload), with each read result
delivering exactly one prefix or one payload. -/
def encodeFrames : List (List Byte) → List (List Byte)
  | [] => []
  | p :: ps => natToBe4 p.length :: p :: encodeFrames ps


/-! ## Branch lemmas: one read-loop iteration per protocol case -/

lemma handleLoop_nil (c : Nat) : handleLoop c [] = ([], c) := rfl

lemma handleLoop_eof (c : Nat) (rest : List (List Byte)) :
    handleLoop c ([] :: rest) = ([], c) := by
  simp [handleLoop]

lemma handleLoop_lenPrefixShort (c : Nat) (chunk : List Byte) (rest : List (List Byte))
    (h0 : chunk.length ≠ 0) (h4 : chunk.length < 4) :
    handleLoop c (chunk :: rest) = ([LogLine.incompleteLength], c) := by
  simp [handleLoop, h0, h4]

lemma handleLoop_zeroLen (c : Nat) (chunk : List Byte) (rest : List (List Byte))
    (h0 : chunk.length ≠ 0) (h4 : ¬ chunk.length < 4) (hL : beBytesToNat chunk = 0) :
    handleLoop c (chunk :: rest) =
      (LogLine.expecting 0 :: LogLine.tooShort 0 :: (handleLoop c rest).1,
       (handleLoop c rest).2) := by
  simp [handleLoop, h0, h4, hL]

lemma handleLoop_noPayload (c : Nat) (chunk : List Byte)
    (h0 : chunk.length ≠ 0) (h4 : ¬ chunk.length < 4) (hL : beBytesToNat chunk ≠ 0) :
    handleLoop c [chunk] =
      ([LogLine.expecting (beBytesToNat chunk),
        LogLine.incompleteData (beBytesToNat chunk) 0], c) := by
  simp [handleLoop, h0, h4, hL]

lemma handleLoop_badPayload (c : Nat) (chunk txData : List Byte) (rest2 : List (List Byte))
    (h0 : chunk.length ≠ 0) (h4 : ¬ chunk.length < 4) (hL : beBytesToNat chunk ≠ 0)
    (hne : txData.length ≠ beBytesToNat chunk) :
    handleLoop c (chunk :: txData :: rest2) =
      ([LogLine.expecting (beBytesToNat chunk),
        LogLine.incompleteData (beBytesToNat chunk) txData.length], c) := by
  simp [handleLoop, h0, h4, hL, hne]

lemma handleLoop_validPayload (c : Nat) (chunk txData : List Byte) (rest2 : List (List Byte))
    (h0 : chunk.length ≠ 0) (h4 : ¬ chunk.length < 4)
    (heq : txData.length = beBytesToNat chunk) (h9 : 9 ≤ txData.length) :
    handleLoop c (chunk :: txData :: rest2) =
      (LogLine.expecting (beBytesToNat chunk) :: classLine (c + 1) txData ::
        (handleLoop (c + 1) rest2).1,
       (handleLoop (c + 1) rest2).2) := by
  have hL : beBytesToNat chunk ≠ 0 := by omega
  have h9' : 9 ≤ beBytesToNat chunk := heq ▸ h9
  simp [handleLoop, h0, h4, hL, heq, h9']

lemma handleLoop_shortPayload (c : Nat) (chunk txData : List Byte) (rest2 : List (List Byte))
    (h0 : chunk.length ≠ 0) (h4 : ¬ chunk.length < 4) (hL : beBytesToNat chunk ≠ 0)
    (heq : txData.length = beBytesToNat chunk) (h9 : txData.length < 9) :
    handleLoop c (chunk :: txData :: rest2) =
      (LogLine.expecting (beBytesToNat chunk) :: LogLine.tooShort txData.length ::
        (handleLoop c rest2).1,
       (handleLoop c rest2).2) := by
  simp [handleLoop, h0, h4, hL, heq]
  omega

lemma frames_nil : frames [] = [] := rfl

lemma frames_eof (rest : List (List Byte)) : frames ([] :: rest) = [] := by
  simp [frames]

lemma frames_lenPrefixShort (chunk : List Byte) (rest : List (List Byte))
    (h0 : chunk.length ≠ 0) (h4 : chunk.length < 4) :
    frames (chunk :: rest) = [] := by
  simp [frames, h0, h4]

lemma frames_zeroLen (chunk : List Byte) (rest : List (List Byte))
    (h0 : chunk.length ≠ 0) (h4 : ¬ chunk.length < 4) (hL : beBytesToNat chunk = 0) :
    frames (chunk :: rest) = [] :: frames rest := by
  simp [frames, h0, h4, hL]

lemma frames_noPayload (chunk : List Byte)
    (h0 : chunk.length ≠ 0) (h4 : ¬ chunk.length < 4) (hL : beBytesToNat chunk ≠ 0) :
    frames [chunk] = [] := by
  simp [frames, h0, h4, hL]

lemma frames_badPayload (chunk txData : List Byte) (rest2 : List (List Byte))
    (h0 : chunk.length ≠ 0) (h4 : ¬ chunk.length < 4) (hL : beBytesToNat chunk ≠ 0)
    (hne : txData.length ≠ beBytesToNat chunk) :
    frames (chunk :: txData :: rest2) = [] := by
  simp [frames, h0, h4, hL, hne]

lemma frames_fullPayload (chunk txData : List Byte) (rest2 : List (List Byte))
    (h0 : chunk.length ≠ 0) (h4 : ¬ chunk.length < 4) (hL : beBytesToNat chunk ≠ 0)
    (heq : txData.length = beBytesToNat chunk) :
    frames (chunk :: txData :: rest2) = txData :: frames rest2 := by
  simp [frames, h0, h4, hL, heq]

/-! ## Master correspondence between the handler run and the record stream -/

/-- Master correspondence: over any read sequence, the classification lines
the loop emits are exactly one per valid record, in record order, carrying
the running counter, and the final counter is the initial one plus the
number of valid records. -/
lemma handleLoop_spec (c : Nat) (reads : List (List Byte)) :
    (handleLoop c reads).1.filter isClassLine = mkLines c (validRecords reads)
    ∧ (handleLoop c reads).2 = c + (validRecords reads).length := by
  induction c, reads using handleLoop.induct with
  | case1 c =>
    simp [handleLoop_nil, validRecords, frames_nil, mkLines]
  | case2 c chunk rest h0 =>
    have hc : chunk = [] := List.length_eq_zero.mp h0
    subst hc
    simp [handleLoop_eof, validRecords, frames_eof, mkLines]
  | case3 c chunk rest h0 h4 =>
    rw [handleLoop_lenPrefixShort c chunk rest h0 h4]
    simp [validRecords, frames_lenPrefixShort chunk rest h0 h4, mkLines, isClassLine]
  | case4 c chunk rest h0 h4 L hL ih =>
    rw [handleLoop_zeroLen c chunk rest h0 h4 hL]
    rw [validRecords, frames_zeroLen chunk rest h0 h4 hL]
    simp only [List.filter_cons]
    simpa [isClassLine, validRecords] using ih
  | case5 c chunk h0 h4 L hL =>
    rw [handleLoop_noPayload c chunk h0 h4 hL]
    simp [validRecords, frames_noPayload chunk h0 h4 hL, mkLines, isClassLine]
  | case6 c chunk h0 h4 L hL txData rest2 hne =>
    rw [handleLoop_badPayload c chunk txData rest2 h0 h4 hL hne]
    simp [validRecords, frames_badPayload chunk txData rest2 h0 h4 hL hne,
      mkLines, isClassLine]
  | case7 c chunk h0 h4 L hL txData rest2 hne h9 ih =>
    have heq : txData.length = beBytesToNat chunk := by
      by_contra hx
      exact hne hx
    rw [handleLoop_validPayload c chunk txData rest2 h0 h4 heq h9]
    rw [validRecords, frames_fullPayload chunk txData rest2 h0 h4 hL heq]
    simp only [List.filter_cons, h9, decide_True, decide_eq_true_eq, if_pos]
    constructor
    · simp [isClassLine, classLine, mkLines]
      simpa [validRecords] using ih.1
    · have := ih.2
      simp [validRecords] at this
      simp [this, mkLines]
      omega
  | case8 c chunk h0 h4 L hL txData rest2 hne h9 ih =>
    have heq : txData.length = beBytesToNat chunk := by
      by_contra hx
      exact hne hx
    have h9' : txData.length < 9 := by omega
    rw [handleLoop_shortPayload c chunk txData rest2 h0 h4 hL heq h9']
    rw [validRecords, frames_fullPayload chunk txData rest2 h0 h4 hL heq]
    simp only [List.filter_cons]
    have : ¬ (9 ≤ txData.length) := by omega
    simpa [isClassLine, this, validRecords] using ih

lemma beBytesToNat_natToBe4 (n : Nat) (h : n < 2 ^ 32) :
    beBytesToNat (natToBe4 n) = n := by
  simp [beBytesToNat, natToBe4]
  omega

lemma natToBe4_length (n : Nat) : (natToBe4 n).length = 4 := rfl

/-- The loop never emits the disconnect line (that line comes from the
`finally` block, outside the loop). -/
lemma handleLoop_no_disconnect (c : Nat) (reads : List (List Byte)) :
    (handleLoop c reads).1.filter isDisconnectLine = [] := by
  induction c, reads using handleLoop.induct with
  | case1 c => simp [handleLoop_nil]
  | case2 c chunk rest h0 =>
    have hc : chunk = [] := List.length_eq_zero.mp h0
    subst hc
    simp [handleLoop_eof]
  | case3 c chunk rest h0 h4 =>
    rw [handleLoop_lenPrefixShort c chunk rest h0 h4]
    simp [isDisconnectLine]
  | case4 c chunk rest h0 h4 L hL ih =>
    rw [handleLoop_zeroLen c chunk rest h0 h4 hL]
    simpa [isDisconnectLine] using ih
  | case5 c chunk h0 h4 L hL =>
    rw [handleLoop_noPayload c chunk h0 h4 hL]
    simp [isDisconnectLine]
  | case6 c chunk h0 h4 L hL txData rest2 hne =>
    rw [handleLoop_badPayload c chunk txData rest2 h0 h4 hL hne]
    simp [isDisconnectLine]
  | case7 c chunk h0 h4 L hL txData rest2 hne h9 ih =>
    have heq : txData.length = beBytesToNat chunk := by
      by_contra hx
      exact hne hx
    rw [handleLoop_validPayload c chunk txData rest2 h0 h4 heq h9]
    simpa [isDisconnectLine, classLine] using ih
  | case8 c chunk h0 h4 L hL txData rest2 hne h9 ih =>
    have heq : txData.length = beBytesToNat chunk := by
      by_contra hx
      exact hne hx
    have h9' : txData.length < 9 := by omega
    rw [handleLoop_shortPayload c chunk txData rest2 h0 h4 hL heq h9']
    simpa [isDisconnectLine] using ih

lemma mkLines_length (c : Nat) (ps : List (List Byte)) :
    (mkLines c ps).length = ps.length := by
  induction ps generalizing c with
  | nil => simp [mkLines]
  | cons p ps ih => simp [mkLines, ih]

lemma mkLines_get (c : Nat) (ps : List (List Byte)) (i : Nat) :
    (mkLines c ps).get? i = (ps.get? i).map (fun p => classLine (c + i + 1) p) := by
  induction ps generalizing c i with
  | nil => simp [mkLines]
  | cons p ps ih =>
    cases i with
    | zero => simp [mkLines]
    | succ j =>
      simp only [mkLines, List.get?_cons_succ, ih (c + 1) j]
      have : c + 1 + j + 1 = c + (j + 1) + 1 := by omega
      rw [this]

lemma frames_encodeFrames (ps : List (List Byte))
    (h : ∀ p ∈ ps, 9 ≤ p.length ∧ p.length < 2 ^ 32) :
    frames (encodeFrames ps) = ps := by
  induction ps with
  | nil => simp [encodeFrames, frames_nil]
  | cons p ps ih =>
    obtain ⟨h9, h32⟩ := h p (List.mem_cons_self p ps)
    have hdec : beBytesToNat (natToBe4 p.length) = p.length :=
      beBytesToNat_natToBe4 p.length h32
    have h0 : (natToBe4 p.length).length ≠ 0 := by simp [natToBe4_length]
    have h4 : ¬ (natToBe4 p.length).length < 4 := by simp [natToBe4_length]
    have hL : beBytesToNat (natToBe4 p.length) ≠ 0 := by omega
    have heq : p.length = beBytesToNat (natToBe4 p.length) := hdec.symm
    rw [encodeFrames, frames_fullPayload (natToBe4 p.length) p (encodeFrames ps) h0 h4 hL heq]
    rw [ih (fun q hq => h q (List.mem_cons_of_mem p hq))]

/-! ## Small-step state machine per connection (spec section 4.2), with an
interleaving scheduler for two connections on two different ports.

Connections accepted on *different* ports belong to different
`AutobahnTestServer` instances, so each has its own `tx_count`: the `count`
field below.  (For two connections on the *same* port this per-connection
model would be wrong — the Python counter is a server attribute.) -/

/-- The handler's protocol state. -/
inductive HState where
  | awaitingLength
  | awaitingPayload (length : Nat)
  | closed
deriving DecidableEq, Repr

/-- One connection mid-run: protocol state, its server's counter, the read
results not yet consumed, and the log lines emitted so far. -/
structure Conn where
  st : HState
  count : Nat
  pending : List (List Byte)
  logs : List LogLine
deriving DecidableEq, Repr

/-- One iteration of the handler: a single suspension point (one read) and
the processing that follows it, exactly as in `handle_client`. -/
def step (k : Conn) : Conn :=
  match k.st with
  | HState.closed => k
  | HState.awaitingLength =>
    match k.pending with
    | [] => Conn.mk HState.closed k.count [] k.logs
    | chunk :: rest =>
      if chunk.length = 0 then Conn.mk HState.closed k.count rest k.logs
      else if chunk.length < 4 then
        Conn.mk HState.closed k.count rest (k.logs ++ [LogLine.incompleteLength])
      else
        Conn.mk (HState.awaitingPayload (beBytesToNat chunk)) k.count rest
          (k.logs ++ [LogLine.expecting (beBytesToNat chunk)])
  | HState.awaitingPayload L =>
    if L = 0 then
      Conn.mk HState.awaitingLength k.count k.pending (k.logs ++ [LogLine.tooShort 0])
    else
      match k.pending with
      | [] => Conn.mk HState.closed k.count [] (k.logs ++ [LogLine.incompleteData L 0])
      | txData :: rest =>
        if txData.length ≠ L then
          Conn.mk HState.closed k.count rest
            (k.logs ++ [LogLine.incompleteData L txData.length])
        else if 9 ≤ txData.length then
          Conn.mk HState.awaitingLength (k.count + 1) rest
            (k.logs ++ [classLine (k.count + 1) txData])
        else
          Conn.mk HState.awaitingLength k.count rest
            (k.logs ++ [LogLine.tooShort txData.length])

/-- Iterate the handler step `n` times. -/
def stepN : Nat → Conn → Conn
  | 0, k => k
  | n + 1, k => stepN n (step k)

/-- Cooperative interleaving of two connections on different ports: the
schedule says at each point which of the two tasks runs its next iteration.
`true` runs the first connection, `false` the second. -/
def runSched (a b : Conn) : List Bool → Conn × Conn
  | [] => (a, b)
  | s :: sched => if s then runSched (step a) b sched else runSched a (step b) sched

lemma runSched_fst (a b : Conn) (sched : List Bool) :
    (runSched a b sched).1 = stepN (sched.count true) a := by
  induction sched generalizing a b with
  | nil => simp [runSched, stepN, List.count_nil]
  | cons s sched ih =>
    cases s with
    | true =>
      simp [runSched, ih (step a) b, List.count_cons, stepN]
    | false =>
      simp [runSched, ih a (step b), List.count_cons]

/-- The connection as the step machine starts it: `AwaitingLength`, the
server's current counter, the full read sequence, nothing logged yet. -/
def initConn (c : Nat) (reads : List (List Byte)) : Conn :=
  Conn.mk HState.awaitingLength c reads []

/-- Adequacy of the small-step machine: run to completion it computes the
same logs and the same final counter as the big-step loop. -/
lemma stepN_adequate (c : Nat) (reads : List (List Byte)) :
    ∃ n rest, ∀ logs0 : List LogLine,
      stepN n (Conn.mk HState.awaitingLength c reads logs0) =
        Conn.mk HState.closed (handleLoop c reads).2 rest (logs0 ++ (handleLoop c reads).1) := by
  induction c, reads using handleLoop.induct with
  | case1 c =>
    exact ⟨1, [], fun logs0 => by simp [stepN, step, handleLoop_nil]⟩
  | case2 c chunk rest h0 =>
    have hc : chunk = [] := List.length_eq_zero.mp h0
    subst hc
    exact ⟨1, rest, fun logs0 => by simp [stepN, step, handleLoop_eof]⟩
  | case3 c chunk rest h0 h4 =>
    refine ⟨1, rest, fun logs0 => ?_⟩
    rw [handleLoop_lenPrefixShort c chunk rest h0 h4]
    simp [stepN, step, h0, h4]
  | case4 c chunk rest h0 h4 L hL ih =>
    obtain ⟨n, rest', ih⟩ := ih
    refine ⟨n + 2, rest', fun logs0 => ?_⟩
    rw [handleLoop_zeroLen c chunk rest h0 h4 hL]
    have e1 : step (Conn.mk HState.awaitingLength c (chunk :: rest) logs0) =
        Conn.mk (HState.awaitingPayload 0) c rest (logs0 ++ [LogLine.expecting 0]) := by
      simp [step, h0, h4]
      exact hL
    have e2 : step (Conn.mk (HState.awaitingPayload 0) c rest (logs0 ++ [LogLine.expecting 0])) =
        Conn.mk HState.awaitingLength c rest
          (logs0 ++ [LogLine.expecting 0] ++ [LogLine.tooShort 0]) := by
      simp [step]
    show stepN n (step (step (Conn.mk HState.awaitingLength c (chunk :: rest) logs0))) = _
    rw [e1, e2, ih (logs0 ++ [LogLine.expecting 0] ++ [LogLine.tooShort 0])]
    simp
  | case5 c chunk h0 h4 L hL =>
    refine ⟨2, [], fun logs0 => ?_⟩
    rw [handleLoop_noPayload c chunk h0 h4 hL]
    have e1 : step (Conn.mk HState.awaitingLength c [chunk] logs0) =
        Conn.mk (HState.awaitingPayload (beBytesToNat chunk)) c []
          (logs0 ++ [LogLine.expecting (beBytesToNat chunk)]) := by
      simp [step, h0, h4]
    show stepN 1 (step (Conn.mk HState.awaitingLength c [chunk] logs0)) = _
    rw [e1]
    simp [stepN, step, hL]
  | case6 c chunk h0 h4 L hL txData rest2 hne =>
    refine ⟨2, rest2, fun logs0 => ?_⟩
    rw [handleLoop_badPayload c chunk txData rest2 h0 h4 hL hne]
    have e1 : step (Conn.mk HState.awaitingLength c (chunk :: txData :: rest2) logs0) =
        Conn.mk (HState.awaitingPayload (beBytesToNat chunk)) c (txData :: rest2)
          (logs0 ++ [LogLine.expecting (beBytesToNat chunk)]) := by
      simp [step, h0, h4]
    show stepN 1 (step (Conn.mk HState.awaitingLength c (chunk :: txData :: rest2) logs0)) = _
    rw [e1]
    simp [stepN, step, hL, hne]
  | case7 c chunk h0 h4 L hL txData rest2 hne h9 ih =>
    obtain ⟨n, rest', ih⟩ := ih
    have heq : txData.length = beBytesToNat chunk := by
      by_contra hx
      exact hne hx
    refine ⟨n + 2, rest', fun logs0 => ?_⟩
    rw [handleLoop_validPayload c chunk txData rest2 h0 h4 heq h9]
    have e1 : step (Conn.mk HState.awaitingLength c (chunk :: txData :: rest2) logs0) =
        Conn.mk (HState.awaitingPayload (beBytesToNat chunk)) c (txData :: rest2)
          (logs0 ++ [LogLine.expecting (beBytesToNat chunk)]) := by
      simp [step, h0, h4]
    have e2 : step (Conn.mk (HState.awaitingPayload (beBytesToNat chunk)) c (txData :: rest2)
          (logs0 ++ [LogLine.expecting (beBytesToNat chunk)])) =
        Conn.mk HState.awaitingLength (c + 1) rest2
          (logs0 ++ [LogLine.expecting (beBytesToNat chunk)] ++ [classLine (c + 1) txData]) := by
      simp [step, hL, heq, h9]
      omega
    show stepN n (step (step (Conn.mk HState.awaitingLength c (chunk :: txData :: rest2) logs0))) = _
    rw [e1, e2, ih]
    simp
  | case8 c chunk h0 h4 L hL txData rest2 hne h9 ih =>
    obtain ⟨n, rest', ih⟩ := ih
    have heq : txData.length = beBytesToNat chunk := by
      by_contra hx
      exact hne hx
    have h9' : txData.length < 9 := by omega
    refine ⟨n + 2, rest', fun logs0 => ?_⟩
    rw [handleLoop_shortPayload c chunk txData rest2 h0 h4 hL heq h9']
    have e1 : step (Conn.mk HState.awaitingLength c (chunk :: txData :: rest2) logs0) =
        Conn.mk (HState.awaitingPayload (beBytesToNat chunk)) c (txData :: rest2)
          (logs0 ++ [LogLine.expecting (beBytesToNat chunk)]) := by
      simp [step, h0, h4]
    have e2 : step (Conn.mk (HState.awaitingPayload (beBytesToNat chunk)) c (txData :: rest2)
          (logs0 ++ [LogLine.expecting (beBytesToNat chunk)])) =
        Conn.mk HState.awaitingLength c rest2
          (logs0 ++ [LogLine.expecting (beBytesToNat chunk)] ++ [LogLine.tooShort txData.length]) := by
      simp [step, hL, heq]
      omega
    show stepN n (step (step (Conn.mk HState.awaitingLength c (chunk :: txData :: rest2) logs0))) = _
    rw [e1, e2, ih]
    simp

/-! ## The AwaitingPayload stage as a function of the declared length -/

/-- The AwaitingPayload stage of the loop for a declared length `L`: the
payload read (`reader.read(L)`, which for `L = 0` returns the empty byte
string at once) and the processing that follows, then back to the read
loop.  Returns the log lines from this point on and the final counter. -/
def awaitPayload (c L : Nat) (reads : List (List Byte)) : List LogLine × Nat :=
  if L = 0 then
    let r := handleLoop c reads
    (LogLine.tooShort 0 :: r.1, r.2)
  else
    match reads with
    | [] => ([LogLine.incompleteData L 0], c)
    | txData :: rest =>
      if txData.length ≠ L then ([LogLine.incompleteData L txData.length], c)
      else if 9 ≤ txData.length then
        let r := handleLoop (c + 1) rest
        (classLine (c + 1) txData :: r.1, r.2)
      else
        let r := handleLoop c rest
        (LogLine.tooShort txData.length :: r.1, r.2)

/-- After a full 4-byte length prefix, the loop logs the expected length and
behaves as the AwaitingPayload stage for the decoded length. -/
lemma handleLoop_cons_four (c : Nat) (chunk : List Byte) (rest : List (List Byte))
    (h4 : chunk.length = 4) :
    handleLoop c (chunk :: rest) =
      (LogLine.expecting (beBytesToNat chunk) :: (awaitPayload c (beBytesToNat chunk) rest).1,
       (awaitPayload c (beBytesToNat chunk) rest).2) := by
  have h0 : chunk.length ≠ 0 := by omega
  have h4' : ¬ chunk.length < 4 := by omega
  by_cases hL : beBytesToNat chunk = 0
  · rw [handleLoop_zeroLen c chunk rest h0 h4' hL]
    simp [awaitPayload, hL]
  · cases rest with
    | nil =>
      rw [handleLoop_noPayload c chunk h0 h4' hL]
      simp [awaitPayload, hL]
    | cons txData rest2 =>
      by_cases hne : txData.length = beBytesToNat chunk
      · by_cases h9 : 9 ≤ txData.length
        · have h9' : 9 ≤ beBytesToNat chunk := hne ▸ h9
          rw [handleLoop_validPayload c chunk txData rest2 h0 h4' hne h9]
          simp [awaitPayload, hL, hne, h9, h9']
        · have h9' : ¬ 9 ≤ beBytesToNat chunk := hne ▸ h9
          rw [handleLoop_shortPayload c chunk txData rest2 h0 h4' hL hne (by omega)]
          simp [awaitPayload, hL, hne, h9, h9']
      · rw [handleLoop_badPayload c chunk txData rest2 h0 h4' hL hne]
        simp [awaitPayload, hL, hne]

/-! ## Handler-level helper lemmas -/

lemma handle_client_classLines (c0 : Nat) (reads : List (List Byte)) :
    (handle_client c0 reads).1.filter isClassLine = mkLines c0 (validRecords reads) := by
  simp only [handle_client, List.filter_append, List.filter_cons]
  simp [isClassLine, (handleLoop_spec c0 reads).1]

lemma handle_client_count (c0 : Nat) (reads : List (List Byte)) :
    (handle_client c0 reads).2 = c0 + (validRecords reads).length := by
  simp [handle_client, (handleLoop_spec c0 reads).2]

lemma handle_client_getLast (c0 : Nat) (reads : List (List Byte)) :
    (handle_client c0 reads).1.getLast? =
      some (LogLine.disconnect (c0 + (validRecords reads).length)) := by
  simp only [handle_client]
  rw [List.getLast?_concat, (handleLoop_spec c0 reads).2]

lemma handle_client_one_disconnect (c0 : Nat) (reads : List (List Byte)) :
    ((handle_client c0 reads).1.filter isDisconnectLine).length = 1 := by
  simp only [handle_client, List.filter_append, List.filter_cons]
  simp [isDisconnectLine, handleLoop_no_disconnect c0 reads]

/-! ## Claims -/

/-- C1 counterexample: `tx_count` is an attribute of the per-port
`AutobahnTestServer` object, not of the session.  A first connection on port
4000 delivers one record of length ≥ 9; a second connection on the same
port then sends nothing and closes, so it receives 0 such records, yet its
disconnect report says `tx_count = 1`, not 0. -/
theorem C1_counterexample :
    ((((Server.init 4000).handleConn [[0,0,0,9],[0,1,2,3,4,5,6,7,8]]).2.handleConn []).1.getLast?
      = some (LogLine.disconnect 1))
    ∧ (validRecords ([] : List (List Byte))).length = 0
    ∧ (1 : Nat) ≠ 0 := by
  decide

/-- C1 (amended): for every connection, `tx_count` at the disconnect report
equals the server's counter at connection start plus the number of records
received on that connection whose payload length was ≥ 9, independent of
the `tx_type` values (the count depends only on payload lengths); at every
intermediate point, the i-th classification line reports the start value
plus i + 1.  The counter is shared with other connections accepted on the
same port (the start value is whatever those left behind); only connections
on other ports, i.e. other `Server` values, cannot affect it. -/
theorem C1_amended (s : Server) (reads : List (List Byte)) :
    (s.handleConn reads).2.tx_count = s.tx_count + (validRecords reads).length
    ∧ (s.handleConn reads).1.getLast? =
        some (LogLine.disconnect (s.tx_count + (validRecords reads).length))
    ∧ ∀ i : Nat, ((s.handleConn reads).1.filter isClassLine).get? i =
        ((validRecords reads).get? i).map (fun p => classLine (s.tx_count + i + 1) p) := by
  refine ⟨handle_client_count s.tx_count reads, handle_client_getLast s.tx_count reads, ?_⟩
  intro i
  have : (s.handleConn reads).1 = (handle_client s.tx_count reads).1 := rfl
  rw [this, handle_client_classLines, mkLines_get]

/-- C2 counterexample: a connection sending K = 1 well-formed frame to a
server that already handled an earlier connection gets a disconnect line
reporting `tx_count = 2`, not K = 1 — the counter is per server (per port),
not per connection. -/
theorem C2_counterexample :
    ((((Server.init 4000).handleConn (encodeFrames [[0,1,2,3,4,5,6,7,8]])).2.handleConn
        (encodeFrames [[1,9,9,9,9,9,9,9,9]])).1.filter isClassLine).length = 1
    ∧ (((Server.init 4000).handleConn (encodeFrames [[0,1,2,3,4,5,6,7,8]])).2.handleConn
        (encodeFrames [[1,9,9,9,9,9,9,9,9]])).1.getLast? = some (LogLine.disconnect 2)
    ∧ LogLine.disconnect 2 ≠ LogLine.disconnect 1 := by
  decide

/-- C2 (amended): for every connection whose input is K well-formed frames
(each payload length ≥ 9 and < 2^32) followed by a clean close, the handler
emits exactly K classification lines and exactly one disconnect line, which
comes last and reports the server's counter at connection start plus K
(equal to K exactly when this is the first activity on that port's server). -/
theorem C2_amended (s : Server) (ps : List (List Byte))
    (h : ∀ p ∈ ps, 9 ≤ p.length ∧ p.length < 2 ^ 32) :
    ((s.handleConn (encodeFrames ps)).1.filter isClassLine).length = ps.length
    ∧ ((s.handleConn (encodeFrames ps)).1.filter isDisconnectLine).length = 1
    ∧ (s.handleConn (encodeFrames ps)).1.getLast? =
        some (LogLine.disconnect (s.tx_count + ps.length)) := by
  have hv : validRecords (encodeFrames ps) = ps := by
    rw [validRecords, frames_encodeFrames ps h]
    exact List.filter_eq_self.mpr (fun p hp => by simpa using (h p hp).1)
  have h1 : (s.handleConn (encodeFrames ps)).1 = (handle_client s.tx_count (encodeFrames ps)).1 :=
    rfl
  refine ⟨?_, ?_, ?_⟩
  · rw [h1, handle_client_classLines, mkLines_length, hv]
  · rw [h1, handle_client_one_disconnect]
  · rw [h1, handle_client_getLast, hv]

/-- C2 witness: two frames, clean close, on a fresh server. -/
theorem C2_witness :
    ((((Server.init 4000).handleConn
        (encodeFrames [[0,1,2,3,4,5,6,7,8],[1,0,0,0,0,0,0,0,5,77]])).1.filter isClassLine).length
      = 2)
    ∧ ((((Server.init 4000).handleConn
        (encodeFrames [[0,1,2,3,4,5,6,7,8],[1,0,0,0,0,0,0,0,5,77]])).1.filter
          isDisconnectLine).length = 1)
    ∧ (((Server.init 4000).handleConn
        (encodeFrames [[0,1,2,3,4,5,6,7,8],[1,0,0,0,0,0,0,0,5,77]])).1.getLast? =
        some (LogLine.disconnect 2)) := by
  exact C2_amended (Server.init 4000) [[0,1,2,3,4,5,6,7,8],[1,0,0,0,0,0,0,0,5,77]]
    (by decide)

/-- C3: for every fully-read payload of length ≥ 9 (the i-th valid record of
a connection), the classification line for it reports as `tx_id` the
big-endian unsigned interpretation of payload bytes 1 through 8, whatever
the `tx_type` byte (byte 0) is. -/
theorem C3_txId_from_bytes_1_to_8 (c0 : Nat) (reads : List (List Byte)) (i : Nat)
    (p : List Byte) (hp : (validRecords reads).get? i = some p) :
    ∃ kind, ((handle_client c0 reads).1.filter isClassLine).get? i =
      some (LogLine.classify kind (c0 + i + 1)
        (beBytesToNat ((p.drop 1).take 8)) p.length) := by
  refine ⟨kindOf p.headI, ?_⟩
  rw [handle_client_classLines, mkLines_get, hp]
  rfl

/-- C3 witness: a 9-byte payload with an unrecognised type byte 7; the
decoded id is the big-endian value of bytes 1..8. -/
theorem C3_witness :
    (validRecords [[0,0,0,9],[7,1,2,3,4,5,6,7,8]]).get? 0 = some [7,1,2,3,4,5,6,7,8]
    ∧ ∃ kind, ((handle_client 0 [[0,0,0,9],[7,1,2,3,4,5,6,7,8]]).1.filter isClassLine).get? 0 =
        some (LogLine.classify kind 1
          (beBytesToNat ((([7,1,2,3,4,5,6,7,8] : List Byte).drop 1).take 8))
          ([7,1,2,3,4,5,6,7,8] : List Byte).length) :=
  ⟨by decide,
   C3_txId_from_bytes_1_to_8 0 [[0,0,0,9],[7,1,2,3,4,5,6,7,8]] 0 [7,1,2,3,4,5,6,7,8] (by decide)⟩

/-- C4: every fully-read payload of length ≥ 9 (the i-th valid record) gets
exactly one classification line — SAMPLE when byte 0 is 0, STANDARD when it
is 1, otherwise UNKNOWN carrying the type value — no such payload is
dropped (there are as many classification lines as valid records), and the
final counter increments by exactly one per such payload. -/
theorem C4_classify_and_count (c0 : Nat) (reads : List (List Byte)) (i : Nat)
    (p : List Byte) (hp : (validRecords reads).get? i = some p) :
    ((handle_client c0 reads).1.filter isClassLine).get? i =
      some (LogLine.classify
        (if p.headI = 0 then TxKind.sample
         else if p.headI = 1 then TxKind.standard
         else TxKind.unknown p.headI)
        (c0 + i + 1) (beBytesToNat ((p.drop 1).take 8)) p.length)
    ∧ ((handle_client c0 reads).1.filter isClassLine).length = (validRecords reads).length
    ∧ (handle_client c0 reads).2 = c0 + (validRecords reads).length := by
  refine ⟨?_, ?_, handle_client_count c0 reads⟩
  · rw [handle_client_classLines, mkLines_get, hp]
    rfl
  · rw [handle_client_classLines, mkLines_length]

/-- C4 witness: an unrecognised type byte 5 is still counted and logged as
UNKNOWN with the type value. -/
theorem C4_witness :
    (validRecords [[0,0,0,10],[5,0,0,0,0,0,0,0,42,99]]).get? 0 = some [5,0,0,0,0,0,0,0,42,99]
    ∧ (((handle_client 3 [[0,0,0,10],[5,0,0,0,0,0,0,0,42,99]]).1.filter isClassLine).get? 0 =
        some (LogLine.classify (TxKind.unknown 5) 4 42 10)
      ∧ ((handle_client 3 [[0,0,0,10],[5,0,0,0,0,0,0,0,42,99]]).1.filter isClassLine).length =
          (validRecords [[0,0,0,10],[5,0,0,0,0,0,0,0,42,99]]).length
      ∧ (handle_client 3 [[0,0,0,10],[5,0,0,0,0,0,0,0,42,99]]).2 =
          3 + (validRecords [[0,0,0,10],[5,0,0,0,0,0,0,0,42,99]]).length) := by
  refine ⟨by decide, ?_⟩
  exact C4_classify_and_count 3 [[0,0,0,10],[5,0,0,0,0,0,0,0,42,99]] 0 [5,0,0,0,0,0,0,0,42,99]
    (by decide)

/-- C5: a fully-read payload of 1 to 8 bytes draws a "transaction too
short" warning, leaves the counter untouched, carries no classification
line (so no `tx_type`/`tx_id` was extracted), and the loop goes on to read
the next frame's length prefix (the run continues exactly as the loop on
the remaining reads). -/
theorem C5_too_short_continues (c : Nat) (lenChunk p : List Byte) (rest : List (List Byte))
    (h4 : lenChunk.length = 4) (hL : beBytesToNat lenChunk = p.length)
    (h9 : p.length < 9) (hp : p ≠ []) :
    handleLoop c (lenChunk :: p :: rest) =
      (LogLine.expecting p.length :: LogLine.tooShort p.length :: (handleLoop c rest).1,
       (handleLoop c rest).2) := by
  have h0 : lenChunk.length ≠ 0 := by omega
  have h4' : ¬ lenChunk.length < 4 := by omega
  have hpos : p.length ≠ 0 := fun h => hp (List.length_eq_zero.mp h)
  have hL' : beBytesToNat lenChunk ≠ 0 := by omega
  rw [handleLoop_shortPayload c lenChunk p rest h0 h4' hL' hL.symm h9, hL]

/-- C5 witness: a 3-byte payload between two other frames. -/
theorem C5_witness :
    handleLoop 2 [[0,0,0,3],[1,2,3]] =
      (LogLine.expecting 3 :: LogLine.tooShort 3 :: (handleLoop 2 []).1,
       (handleLoop 2 []).2) := by
  exact C5_too_short_continues 2 [0,0,0,3] [1,2,3] [] (by decide) (by decide) (by decide)
    (by decide)

/-- C6: in the AwaitingLength state — a read returning 0 bytes closes the
loop with no warning and no count change; a read returning 1 to 3 bytes
logs exactly the "incomplete length prefix" warning, no classification
line, and closes with no further reads (the remaining reads are never
consulted); a read returning 4 bytes decodes them big-endian and the loop
continues as the AwaitingPayload stage for that length. -/
theorem C6_awaiting_length (c : Nat) (chunk : List Byte) (rest : List (List Byte)) :
    (chunk.length = 0 → handleLoop c (chunk :: rest) = ([], c))
    ∧ (1 ≤ chunk.length → chunk.length ≤ 3 →
        handleLoop c (chunk :: rest) = ([LogLine.incompleteLength], c))
    ∧ (chunk.length = 4 → handleLoop c (chunk :: rest) =
        (LogLine.expecting (beBytesToNat chunk) ::
          (awaitPayload c (beBytesToNat chunk) rest).1,
         (awaitPayload c (beBytesToNat chunk) rest).2)) := by
  refine ⟨?_, ?_, ?_⟩
  · intro h0
    have hc : chunk = [] := List.length_eq_zero.mp h0
    subst hc
    exact handleLoop_eof c rest
  · intro h1 h3
    exact handleLoop_lenPrefixShort c chunk rest (by omega) (by omega)
  · intro h4
    exact handleLoop_cons_four c chunk rest h4

/-- C6 witness: the three branches at concrete inputs — clean EOF, a 2-byte
prefix, and a full 4-byte prefix declaring length 2. -/
theorem C6_witness :
    handleLoop 5 ([] :: [[1,2,3]]) = ([], 5)
    ∧ handleLoop 5 [[9,9]] = ([LogLine.incompleteLength], 5)
    ∧ handleLoop 5 [[0,0,0,2],[8,8]] =
        (LogLine.expecting (beBytesToNat [0,0,0,2]) ::
          (awaitPayload 5 (beBytesToNat [0,0,0,2]) [[8,8]]).1,
         (awaitPayload 5 (beBytesToNat [0,0,0,2]) [[8,8]]).2) :=
  ⟨(C6_awaiting_length 5 [] [[1,2,3]]).1 (by decide),
   (C6_awaiting_length 5 [9,9] []).2.1 (by decide) (by decide),
   (C6_awaiting_length 5 [0,0,0,2] [[8,8]]).2.2 (by decide)⟩

/-- C7: in the AwaitingPayload state with declared length L > 0, a payload
read returning a number of bytes different from L (including a read
returning 0 bytes because the peer closed, whether or not further data was
queued) logs exactly one "incomplete transaction data" warning carrying the
expected and actual counts, emits no classification line, leaves the
counter unchanged, and closes without any further read (the remaining
reads never influence the result). -/
theorem C7_incomplete_payload (c L : Nat) (txData : List Byte) (rest : List (List Byte))
    (hL : L ≠ 0) :
    (txData.length ≠ L →
      awaitPayload c L (txData :: rest) = ([LogLine.incompleteData L txData.length], c))
    ∧ awaitPayload c L [] = ([LogLine.incompleteData L 0], c) := by
  constructor
  · intro hne
    simp [awaitPayload, hL, hne]
  · simp [awaitPayload, hL]

/-- C7 witness: declared length 20, read returns 15 bytes; and a stream
that ends before the payload. -/
theorem C7_witness :
    awaitPayload 4 20 [[1,2,3,4,5,6,7,8,9,10,11,12,13,14,15],[0,0,0,9]] =
      ([LogLine.incompleteData 20 15], 4)
    ∧ awaitPayload 4 20 [] = ([LogLine.incompleteData 20 0], 4) :=
  ⟨(C7_incomplete_payload 4 20 [1,2,3,4,5,6,7,8,9,10,11,12,13,14,15] [[0,0,0,9]]
      (by decide)).1 (by decide),
   (C7_incomplete_payload 4 20 [] [] (by decide)).2⟩

/-- C8 counterexample: `tx_count` does not start at 0 when a session is
created on accept — a second connection on the same port starts with the
value the first left behind, so its first counted record is logged as
transaction number 2, where a counter owned by the session would say 1. -/
theorem C8_counterexample :
    (Server.init 4000).tx_count = 0
    ∧ ((((Server.init 4000).handleConn (encodeFrames [[0,1,2,3,4,5,6,7,8]])).2.handleConn
        (encodeFrames [[0,9,9,9,9,9,9,9,9]])).1.filter isClassLine).get? 0 =
        some (classLine 2 [0,9,9,9,9,9,9,9,9])
    ∧ classLine 2 [0,9,9,9,9,9,9,9,9] ≠ classLine 1 [0,9,9,9,9,9,9,9,9] := by
  decide

/-- C8 (amended): `tx_count` starts at 0 when the *server* for a port is
created (not at each accept); within and across the connections a server
handles it never decreases and is never reset, growing by exactly the
number of qualifying records of each connection; and only handlers run by
that same server (same port) ever change it — a connection leaves every
other `Server` value untouched. -/
theorem C8_monotone_counter (port : Nat) (s : Server) (reads : List (List Byte)) :
    (Server.init port).tx_count = 0
    ∧ s.tx_count ≤ (s.handleConn reads).2.tx_count
    ∧ (s.handleConn reads).2.tx_count = s.tx_count + (validRecords reads).length
    ∧ (s.handleConn reads).2.port = s.port := by
  refine ⟨rfl, ?_, handle_client_count s.tx_count reads, rfl⟩
  have h := handle_client_count s.tx_count reads
  have : (s.handleConn reads).2.tx_count = (handle_client s.tx_count reads).2 := rfl
  omega

/-- C10: a frame whose 4-byte prefix decodes to length 0 does not close the
connection: the zero-byte payload read satisfies the length check, the
record is logged as too short, the counter is unchanged, and the loop
continues with the next length prefix. -/
theorem C10_zero_length_frame (c : Nat) (lenChunk : List Byte) (rest : List (List Byte))
    (h4 : lenChunk.length = 4) (hL : beBytesToNat lenChunk = 0) :
    handleLoop c (lenChunk :: rest) =
      (LogLine.expecting 0 :: LogLine.tooShort 0 :: (handleLoop c rest).1,
       (handleLoop c rest).2) :=
  handleLoop_zeroLen c lenChunk rest (by omega) (by omega) hL

/-- C10 witness: a zero-length frame followed by a real frame; the second
frame is still processed. -/
theorem C10_witness :
    handleLoop 0 [[0,0,0,0],[0,0,0,9],[1,1,2,3,4,5,6,7,8]] =
      (LogLine.expecting 0 :: LogLine.tooShort 0 ::
        (handleLoop 0 [[0,0,0,9],[1,1,2,3,4,5,6,7,8]]).1,
       (handleLoop 0 [[0,0,0,9],[1,1,2,3,4,5,6,7,8]]).2) := by
  exact C10_zero_length_frame 0 [0,0,0,0] [[0,0,0,9],[1,1,2,3,4,5,6,7,8]] (by decide) (by decide)

/-- C9: two simultaneous connections accepted on two different configured
ports run as two independently scheduled handler tasks over disjoint state
(each port has its own `AutobahnTestServer`, hence its own `tx_count`).
Whatever the other connection's protocol state, input stream, counter and
logs are, and however the scheduler interleaves the two tasks, the first
connection's entire observable state — protocol state, `tx_count`, log
ordering and remaining input — after any schedule depends only on its own
start state and on how many steps it was given. -/
theorem C9_cross_port_noninterference (a b b' : Conn) (sched sched' : List Bool)
    (h : sched.count true = sched'.count true) :
    (runSched a b sched).1 = (runSched a b' sched').1 := by
  rw [runSched_fst, runSched_fst, h]

/-- C9 witness: the same connection A interleaved with two entirely
different connections B under two different schedules giving A three steps
each: A's outcome is identical. -/
theorem C9_witness :
    (runSched (initConn 0 [[0,0,0,9],[0,1,2,3,4,5,6,7,8]]) (initConn 0 [[1,1]])
        [true,false,true,false,true]).1 =
      (runSched (initConn 0 [[0,0,0,9],[0,1,2,3,4,5,6,7,8]]) (initConn 7 [[0,0,0,3]])
        [false,true,true,false,true]).1 :=
  C9_cross_port_noninterference
    (initConn 0 [[0,0,0,9],[0,1,2,3,4,5,6,7,8]]) (initConn 0 [[1,1]]) (initConn 7 [[0,0,0,3]])
    [true,false,true,false,true] [false,true,true,false,true] (by decide)
